import Mathlib

/-!  Verification of the cocktail-recipes CSV ingestion core (`main.py`).

Shallow embedding conventions:
* Python strings are Lean `String`; per-character work happens on `List Char`.
* Python dicts are association lists kept in insertion order.
* Python floats are `Rat` (they are only ever parsed and stored, never
  computed with, so exact rationals are a faithful carrier).
* A raised exception is `Except.error`.
* The two external collaborators of `load_rows` — the HTTP fetch and the
  stdlib `csv.Sniffer` — enter as explicit parameters: the fetch as an
  `Except Unit String` outcome, the sniffer as a `String → Option Char`
  oracle (`none` models `csv.Error` being raised by `sniff`).
* Unicode handling (`unicodedata.normalize("NFD", ·)` plus dropping the
  combining marks) is modelled on the Latin-1 range by a character table,
  which covers the accented characters this French-language data uses.
-/

/-- Python-style whitespace test: the characters `str.strip()` removes
(space, tab, newline, carriage return, vertical tab, form feed). -/
def isPyWs (c : Char) : Bool :=
  [32, 9, 10, 13, 11, 12].contains c.toNat

/-- `str.strip()` on a character list. -/
def stripWsL (cs : List Char) : List Char :=
  ((cs.dropWhile isPyWs).reverse.dropWhile isPyWs).reverse

/-- `str.strip()`. -/
def pyStrip (s : String) : String := String.mk (stripWsL s.data)

/-- `str.strip(ch)` for a single strip character (used as `.strip("_")`
and `.strip("-")` in `main.py`). -/
def stripCharL (ch : Char) (cs : List Char) : List Char :=
  ((cs.dropWhile (· == ch)).reverse.dropWhile (· == ch)).reverse

/-- `str.lower()` on one character, for ASCII and the Latin-1 uppercase
letters (À–Þ except ×), which is the range the recipe data uses. -/
def pyLowerChar (c : Char) : Char :=
  if 65 ≤ c.toNat ∧ c.toNat ≤ 90 then Char.ofNat (c.toNat + 32)
  else if 0xC0 ≤ c.toNat ∧ c.toNat ≤ 0xDE ∧ c.toNat ≠ 0xD7 then Char.ofNat (c.toNat + 32)
  else c

/-- `str.lower()`. -/
def pyLowerStr (s : String) : String := String.mk (s.data.map pyLowerChar)

/-- NFD decomposition followed by dropping combining marks
(`unicodedata.category(c) != "Mn"`), tabulated on the Latin-1 lowercase
accented letters; every other character decomposes to itself. -/
def deAccent (c : Char) : Char :=
  let n := c.toNat
  if 0xE0 ≤ n ∧ n ≤ 0xE5 then 'a'
  else if n = 0xE7 then 'c'
  else if 0xE8 ≤ n ∧ n ≤ 0xEB then 'e'
  else if 0xEC ≤ n ∧ n ≤ 0xEF then 'i'
  else if n = 0xF1 then 'n'
  else if 0xF2 ≤ n ∧ n ≤ 0xF6 then 'o'
  else if 0xF9 ≤ n ∧ n ≤ 0xFC then 'u'
  else if n = 0xFD ∨ n = 0xFF then 'y'
  else c

/-- ASCII digit test (`0`–`9`). -/
def isAsciiDigitB (c : Char) : Bool := 48 ≤ c.toNat && c.toNat ≤ 57

/-- Character class `[a-z0-9]` of the regexes in `norm_header`/`slugify`. -/
def isLowerAlnum (c : Char) : Bool :=
  (97 ≤ c.toNat && c.toNat ≤ 122) || isAsciiDigitB c

/-- `re.sub(r"[^X]+", rep, ·)`: collapse every maximal run of characters
not satisfying `keep` into a single `rep`.  The boolean argument records
whether we are inside such a run. -/
def collapseAux (rep : Char) (keep : Char → Bool) : List Char → Bool → List Char
  | [], _ => []
  | c :: rest, inRun =>
    if keep c then c :: collapseAux rep keep rest false
    else if inRun then collapseAux rep keep rest true
    else rep :: collapseAux rep keep rest true

/-- `str.split(sep)` for a one-character separator; like Python,
`"".split(sep) = [""]`. -/
def pySplitL (sep : Char) : List Char → List (List Char)
  | [] => [[]]
  | c :: rest =>
    let r := pySplitL sep rest
    if c == sep then [] :: r
    else
      match r with
      | h :: t => (c :: h) :: t
      | [] => [[c]]

/-- `str.split(sep)` on strings. -/
def pySplitStr (sep : Char) (s : String) : List String :=
  (pySplitL sep s.data).map String.mk

/-- Does `s` begin with `lead`? -/
def hasLead : List Char → List Char → Bool
  | [], _ => true
  | a :: as, b :: bs => if a == b then hasLead as bs else false
  | _ :: _, [] => false

/-- Python's `sub in s` substring test (for non-empty `sub`). -/
def pyContainsL (sub : List Char) : List Char → Bool
  | [] => hasLead sub []
  | c :: rest => hasLead sub (c :: rest) || pyContainsL sub rest

/-- Python's `sub in s` on strings. -/
def pyContains (sub s : String) : Bool := pyContainsL sub.data s.data

/-- Split a character list at the first occurrence of `c`
(`str.split(c, 1)` when it occurs). -/
def splitFirst (c : Char) : List Char → Option (List Char × List Char)
  | [] => none
  | d :: rest =>
    if d == c then some ([], rest)
    else (splitFirst c rest).map (fun p => (d :: p.1, p.2))

/-- `s.replace(".", "")`: remove every dot. -/
def removeDots (s : String) : String := String.mk (s.data.filter (· != '.'))

/-- `text[:n]` (Python slices count code points). -/
def strTake (n : Nat) (s : String) : String := String.mk (s.data.take n)

/-- First character test `s.startswith("[")` on a one-character prefix. -/
def strStartsWithChar (c : Char) (s : String) : Bool :=
  match s.data with
  | d :: _ => d == c
  | [] => false

-- ----------------------------------------------------------
-- Header Normalizer (main.py lines 74-99)
-- ----------------------------------------------------------

/-- The canonical field vocabulary `CANONICAL` of `main.py`. -/
def CANONICAL : List String :=
  ["name", "slug", "glass", "method", "ice", "garnish",
   "ingredients", "spec_ml", "spec_oz", "history", "tags",
   "abv_est", "notes", "source", "last_update"]

/-- The alias table of `norm_header`. -/
def headerAlias (h : String) : String :=
  if h == "specml" then "spec_ml"
  else if h == "specoz" then "spec_oz"
  else if h == "lastupdate" then "last_update"
  else h

/-- `norm_header` of `main.py`: strip, lowercase, strip diacritics,
collapse runs of non-alphanumerics to `_`, strip `_`, apply the alias
table. -/
def norm_header (h : String) : String :=
  let cs := stripWsL h.data
  let cs := cs.map pyLowerChar
  let cs := cs.map deAccent
  let cs := stripCharL '_' (collapseAux '_' isLowerAlnum cs false)
  headerAlias (String.mk cs)

/-- Python dict assignment `m[k] = v` on an insertion-ordered
association list: overwrite in place if the key exists, else append. -/
def dictInsert (m : List (String × String)) (k v : String) : List (String × String) :=
  match m with
  | [] => [(k, v)]
  | p :: rest => if p.1 == k then (k, v) :: rest else p :: dictInsert rest k v

/-- Association-list lookup with a default: `m.get(k, d)`. -/
def assocGetD (m : List (String × String)) (k d : String) : String :=
  match m.find? (fun p => p.1 == k) with
  | some p => p.2
  | none => d

/-- Loop body of `build_header_map`: `mapping` and `used` accumulate. -/
def buildHeaderMapAux : List String → List (String × String) → List String → List (String × String)
  | [], mapping, _ => mapping
  | orig :: rest, mapping, used =>
    let n := norm_header orig
    if CANONICAL.contains n && !(used.contains n) then
      buildHeaderMapAux rest (dictInsert mapping orig n) (n :: used)
    else
      buildHeaderMapAux rest (dictInsert mapping orig orig) used

/-- `build_header_map` of `main.py`. -/
def build_header_map (fieldnames : List String) : List (String × String) :=
  buildHeaderMapAux fieldnames [] []

-- ----------------------------------------------------------
-- Slug Generator (main.py lines 101-106)
-- ----------------------------------------------------------

/-- `slugify` of `main.py`: lowercase, strip diacritics, collapse runs of
non-alphanumerics to `-`, strip `-`. -/
def slugify (s : String) : String :=
  let cs := (s.data.map pyLowerChar).map deAccent
  String.mk (stripCharL '-' (collapseAux '-' isLowerAlnum cs false))

-- ----------------------------------------------------------
-- Source URL Resolver (main.py lines 108-120)
-- ----------------------------------------------------------

/-- The components of `urllib.parse.urlparse` that `main.py` reads. -/
structure UrlParts where
  netloc : String
  path : String
  query : String
deriving DecidableEq

/-- Scheme characters accepted by `urlparse` after the leading letter. -/
def isSchemeChar (c : Char) : Bool :=
  c.isAlpha || isAsciiDigitB c || c == '+' || c == '-' || c == '.'

/-- Drop a leading `scheme:` the way `urlparse` does: only when the text
before the first colon is a non-empty run of scheme characters starting
with a letter. -/
def dropScheme (cs : List Char) : List Char :=
  match splitFirst ':' cs with
  | some (pre, post) =>
    match pre with
    | [] => cs
    | h :: t => if h.isAlpha && t.all isSchemeChar then post else cs
  | none => cs

/-- Split off the network location: after `//`, up to the first of
`/`, `?`, `#`. -/
def splitNetloc (cs : List Char) : List Char × List Char :=
  match cs with
  | '/' :: '/' :: rest =>
    let n := rest.takeWhile (fun c => !(c == '/' || c == '?' || c == '#'))
    (n, rest.dropWhile (fun c => !(c == '/' || c == '?' || c == '#')))
  | _ => ([], cs)

/-- Model of `urllib.parse.urlparse` restricted to the `netloc`, `path`
and `query` components (fragment split off first, then query, the same
order `urlsplit` uses; percent-decoding is not modelled). -/
def pyUrlparse (url : String) : UrlParts :=
  let cs1 := dropScheme url.data
  let (nl, cs2) := splitNetloc cs1
  let cs3 := match splitFirst '#' cs2 with
    | some p => p.1
    | none => cs2
  let (p, q) := match splitFirst '?' cs3 with
    | some pr => pr
    | none => (cs3, [])
  ⟨String.mk nl, String.mk p, String.mk q⟩

/-- `urllib.parse.parse_qsl(q, keep_blank_values=True)`: split on `&`,
skip empty chunks, split each chunk at the first `=`; a chunk with no
`=` keeps a blank value (unquoting is not modelled). -/
def parseQsl (q : String) : List (String × String) :=
  (pySplitL '&' q.data).filterMap fun pair =>
    if pair = [] then none
    else
      match splitFirst '=' pair with
      | some (k, v) => some (String.mk k, String.mk v)
      | none => some (String.mk pair, "")

/-- `parse_qs(u.query, keep_blank_values=True).get("gid", ["0"])[0]`:
the first value given for `gid`, defaulting to `"0"`. -/
def gidFirst (q : String) : String :=
  match (parseQsl q).find? (fun p => p.1 == "gid") with
  | some p => p.2
  | none => "0"

/-- `google_pubhtml_to_csv` of `main.py`.  The Python body is wrapped in
`try/except: return url`; the model is total, so the except arm has no
counterpart. -/
def google_pubhtml_to_csv (url : String) : String :=
  let u := pyUrlparse url
  if pyContains "docs.google.com" u.netloc &&
      pyContains "/spreadsheets/" u.path && pyContains "/d/e/" u.path then
    let parts := pySplitStr '/' u.path
    if 5 ≤ parts.length then
      let docId := parts.getD 4 ""
      let gid := gidFirst u.query
      "https://docs.google.com/spreadsheets/d/e/" ++ docId ++ "/pub?gid=" ++ gid ++
        "&single=true&output=csv"
    else url
  else url

-- ----------------------------------------------------------
-- JSON (model of json.loads for the ingredients cell)
-- ----------------------------------------------------------

/-- JSON values as produced by `json.loads` (numbers as exact rationals;
exponent notation and unicode escapes are outside the model). -/
inductive Json where
  | null
  | bool (b : Bool)
  | num (q : Rat)
  | str (s : String)
  | arr (xs : List Json)
  | obj (fs : List (String × Json))

/-- Opening brace character. -/
def jLBrace : Char := Char.ofNat 123

/-- Closing brace character. -/
def jRBrace : Char := Char.ofNat 125

/-- Skip JSON whitespace. -/
def jSkipWs : List Char → List Char
  | c :: cs => if [32, 9, 10, 13].contains c.toNat then jSkipWs cs else c :: cs
  | [] => []

/-- JSON string escapes (the single-character ones), keyed by code
point: the quote, backslash and slash escapes stand for themselves,
while `n`/`t`/`r`/`b`/`f` stand for their control characters. -/
def jEsc (c : Char) : Option Char :=
  match c.toNat with
  | 34 => some c
  | 92 => some c
  | 47 => some c
  | 110 => some (Char.ofNat 10)
  | 116 => some (Char.ofNat 9)
  | 114 => some (Char.ofNat 13)
  | 98 => some (Char.ofNat 8)
  | 102 => some (Char.ofNat 12)
  | _ => none

/-- Parse the rest of a JSON string literal, the opening quote already
consumed; `acc` is the reversed content so far. -/
def jParseStrAux : List Char → List Char → Option (String × List Char)
  | acc, '"' :: rest => some (String.mk acc.reverse, rest)
  | acc, '\\' :: c :: rest =>
    match jEsc c with
    | some e => jParseStrAux (e :: acc) rest
    | none => none
  | acc, c :: rest => jParseStrAux (c :: acc) rest
  | _, [] => none

/-- Digit characters to a natural number. -/
def digitsToNat (cs : List Char) : Nat := cs.foldl (fun a c => 10 * a + (c.toNat - 48)) 0

/-- The exact rational written with integral digits `ip`, fractional
digits `fp` and an optional sign. -/
def ratOfDecimal (neg : Bool) (ip fp : List Char) : Rat :=
  let m : Int := Int.ofNat (digitsToNat (ip ++ fp))
  mkRat (if neg then -m else m) (10 ^ fp.length)

/-- Parse a JSON number (integer or decimal fraction). -/
def jParseNum (cs : List Char) : Option (Rat × List Char) :=
  let neg := hasLead ['-'] cs
  let cs1 := if neg then cs.drop 1 else cs
  let ip := cs1.takeWhile isAsciiDigitB
  let cs2 := cs1.dropWhile isAsciiDigitB
  if ip = [] then none
  else
    match cs2 with
    | '.' :: cs3 =>
      let fp := cs3.takeWhile isAsciiDigitB
      if fp = [] then none
      else some (ratOfDecimal neg ip fp, cs3.dropWhile isAsciiDigitB)
    | _ => some (ratOfDecimal neg ip [], cs2)

mutual

/-- Fuel-indexed JSON value parser. -/
def jParseVal : Nat → List Char → Option (Json × List Char)
  | 0, _ => none
  | fuel + 1, cs =>
    match jSkipWs cs with
    | [] => none
    | c :: rest =>
      if c == '"' then (jParseStrAux [] rest).map (fun p => (Json.str p.1, p.2))
      else if c == '[' then
        match jSkipWs rest with
        | ']' :: r2 => some (Json.arr [], r2)
        | cs2 => (jParseItems fuel cs2 []).map (fun p => (Json.arr p.1, p.2))
      else if c == jLBrace then
        match jSkipWs rest with
        | d :: r2 =>
          if d == jRBrace then some (Json.obj [], r2)
          else (jParseMembers fuel (d :: r2) []).map (fun p => (Json.obj p.1, p.2))
        | [] => none
      else if hasLead ['t', 'r', 'u', 'e'] (c :: rest) then
        some (Json.bool true, (c :: rest).drop 4)
      else if hasLead ['f', 'a', 'l', 's', 'e'] (c :: rest) then
        some (Json.bool false, (c :: rest).drop 5)
      else if hasLead ['n', 'u', 'l', 'l'] (c :: rest) then
        some (Json.null, (c :: rest).drop 4)
      else (jParseNum (c :: rest)).map (fun p => (Json.num p.1, p.2))

/-- Array items, after the opening bracket (non-empty array). -/
def jParseItems : Nat → List Char → List Json → Option (List Json × List Char)
  | 0, _, _ => none
  | fuel + 1, cs, acc =>
    match jParseVal fuel cs with
    | none => none
    | some (j, rest) =>
      match jSkipWs rest with
      | ',' :: r2 => jParseItems fuel r2 (acc ++ [j])
      | ']' :: r2 => some (acc ++ [j], r2)
      | _ => none

/-- Object members, after the opening brace (non-empty object). -/
def jParseMembers : Nat → List Char → List (String × Json) → Option (List (String × Json) × List Char)
  | 0, _, _ => none
  | fuel + 1, cs, acc =>
    match jSkipWs cs with
    | '"' :: rest =>
      match jParseStrAux [] rest with
      | none => none
      | some (k, rest2) =>
        match jSkipWs rest2 with
        | ':' :: rest3 =>
          match jParseVal fuel rest3 with
          | none => none
          | some (v, rest4) =>
            match jSkipWs rest4 with
            | ',' :: r5 => jParseMembers fuel r5 (acc ++ [(k, v)])
            | d :: r5 => if d == jRBrace then some (acc ++ [(k, v)], r5) else none
            | [] => none
        | _ => none
    | _ => none

end

/-- `json.loads`: parse one JSON value and require only whitespace after
it; `none` models a raised `JSONDecodeError`. -/
def pyJsonLoads (s : String) : Option Json :=
  match jParseVal (2 * s.length + 2) s.data with
  | some (j, rest) => if jSkipWs rest = [] then some j else none
  | none => none

-- ----------------------------------------------------------
-- Ingredient / Recipe models (main.py lines 26-46)
-- ----------------------------------------------------------

/-- The `Ingredient` pydantic model: required `item`, optional `ml`/`oz`. -/
structure Ingredient where
  item : String
  ml : Option Rat := none
  oz : Option Rat := none
deriving DecidableEq

/-- Lookup in a decoded JSON object; `json.loads` keeps the last binding
of a duplicated key, hence `getLast?`. -/
def jLookup (fs : List (String × Json)) (k : String) : Option Json :=
  match (fs.filter (fun p => p.1 == k)).getLast? with
  | some p => some p.2
  | none => none

/-- Validation of an `Optional[float]` field: absent or `null` become
`None`; a JSON number is accepted; anything else fails. -/
def coerceNumField (j : Option Json) : Option (Option Rat) :=
  match j with
  | none => some none
  | some Json.null => some none
  | some (Json.num q) => some (some q)
  | some _ => none

/-- `Ingredient(**x)`: `x` must be a JSON object with a required `item`
string; `ml`/`oz` are optional numbers; extra keys are ignored; `none`
models the raised validation/`TypeError`. -/
def toIngredient (j : Json) : Option Ingredient :=
  match j with
  | Json.obj fs =>
    match jLookup fs "item" with
    | some (Json.str s) =>
      match coerceNumField (jLookup fs "ml"), coerceNumField (jLookup fs "oz") with
      | some ml, some oz => some ⟨s, ml, oz⟩
      | _, _ => none
    | _ => none
  | _ => none

/-- `[Ingredient(**x) for x in data]`: the first failing element raises,
so the whole comprehension yields nothing. -/
def coerceList : List Json → Option (List Ingredient)
  | [] => some []
  | j :: js =>
    match toIngredient j with
    | none => none
    | some i =>
      match coerceList js with
      | none => none
      | some l => some (i :: l)

/-- The ingredients logic of `normalize_row` (main.py lines 581-588):
strip the cell, and only if it opens with `[` try `json.loads` plus
element coercion, any failure collapsing to `None`. -/
def parseIngredientsCell (cell : String) : Option (List Ingredient) :=
  let v := pyStrip cell
  if strStartsWithChar '[' v then
    match pyJsonLoads v with
    | some (Json.arr xs) => coerceList xs
    | some _ => none
    | none => none
  else none

-- ----------------------------------------------------------
-- Row access and `normalize_row` (main.py lines 578-605)
-- ----------------------------------------------------------

/-- A header-remapped CSV row: insertion-ordered mapping from key to cell;
a `none` cell models `csv.DictReader`'s `restval=None` for short rows. -/
abbrev Row := List (String × Option String)

/-- `r.get(k)`: `None` both for a missing key and for a `None` value. -/
def rowGet (r : Row) (k : String) : Option String :=
  match r.find? (fun p => p.1 == k) with
  | some p => p.2
  | none => none

/-- `r.get(k, d)`. -/
def rowGetD (r : Row) (k : String) (d : Option String) : Option String :=
  match r.find? (fun p => p.1 == k) with
  | some p => p.2
  | none => d

/-- Python truthiness of an optional string. -/
def pyTruthy (o : Option String) : Bool :=
  match o with
  | some s => s != ""
  | none => false

/-- The expression `raw.get("slug") or raw.get("name", "")` shared by
`normalize_row` and the slug lookup loop. -/
def slugBase (r : Row) : Option String :=
  if pyTruthy (rowGet r "slug") then rowGet r "slug" else rowGetD r "name" (some "")

/-- Python exceptions `normalize_row` can raise. -/
inductive PyExn
  | valueError
  | attributeError
deriving DecidableEq

/-- Decidable equality of modelled call outcomes. -/
def exceptDecEq {ε α : Type} [DecidableEq ε] [DecidableEq α] :
    (a b : Except ε α) → Decidable (a = b)
  | .error e, .error f =>
    if h : e = f then .isTrue (by rw [h]) else .isFalse (fun hh => h (by injection hh))
  | .error _, .ok _ => .isFalse (fun hh => by injection hh)
  | .ok _, .error _ => .isFalse (fun hh => by injection hh)
  | .ok x, .ok y =>
    if h : x = y then .isTrue (by rw [h]) else .isFalse (fun hh => h (by injection hh))

instance {ε α : Type} [DecidableEq ε] [DecidableEq α] : DecidableEq (Except ε α) :=
  exceptDecEq

/-- `slugify(raw.get("slug") or raw.get("name", ""))`: slugifying `None`
raises `AttributeError` (only reachable for rows that bypassed the
name filter). -/
def rowSlug (r : Row) : Except PyExn String :=
  match slugBase r with
  | some s => .ok (slugify s)
  | none => .error .attributeError

/-- `[t.strip() for t in cell.split(",") if t.strip()]`. -/
def splitTags (s : String) : List String :=
  ((pySplitL ',' s.data).map (fun cs => String.mk (stripWsL cs))).filter (fun t => t != "")

/-- Model of Python `float(s)` for the strings that pass the
`s.replace(".", "").isdigit()` guard (digits and dots only): more than
one dot raises `ValueError`. -/
def pyFloatDigitsDots (s : String) : Except PyExn Rat :=
  if s.data.count '.' ≤ 1 then
    let ip := s.data.takeWhile (· != '.')
    let fp := (s.data.dropWhile (· != '.')).drop 1
    .ok (ratOfDecimal false ip fp)
  else .error .valueError

/-- The `abv_est` expression of `normalize_row`:
`float(cell) if (cell or "").replace(".", "").isdigit() else None`. -/
def abvEst (cell : Option String) : Except PyExn (Option Rat) :=
  let v := cell.getD ""
  let digits := removeDots v
  if digits != "" && digits.data.all isAsciiDigitB then
    (pyFloatDigitsDots v).map some
  else .ok none

/-- The `Recipe` pydantic model. -/
structure Recipe where
  name : String
  slug : String
  glass : Option String
  method : Option String
  ice : Option String
  garnish : Option String
  ingredients : Option (List Ingredient)
  spec_ml : Option String
  spec_oz : Option String
  history : Option String
  tags : List String
  abv_est : Option Rat
  notes : Option String
  source : Option String
  last_update : Option String
deriving DecidableEq

/-- `normalize_row` of `main.py`: the slug expression runs first (it can
raise `AttributeError`), the `abv_est` expression runs inside the
`Recipe(...)` call (it can raise `ValueError`); everything else is total. -/
def normalize_row (raw : Row) : Except PyExn Recipe :=
  match rowSlug raw with
  | .error e => .error e
  | .ok slug =>
    let tags := splitTags ((rowGet raw "tags").getD "")
    let ingredients := parseIngredientsCell ((rowGet raw "ingredients").getD "")
    match abvEst (rowGet raw "abv_est") with
    | .error e => .error e
    | .ok abv =>
      .ok { name := pyStrip ((rowGet raw "name").getD "")
            slug := slug
            glass := rowGet raw "glass"
            method := rowGet raw "method"
            ice := rowGet raw "ice"
            garnish := rowGet raw "garnish"
            ingredients := ingredients
            spec_ml := rowGet raw "spec_ml"
            spec_oz := rowGet raw "spec_oz"
            history := rowGet raw "history"
            tags := tags
            abv_est := abv
            notes := rowGet raw "notes"
            source := rowGet raw "source"
            last_update := rowGet raw "last_update" }

-- ----------------------------------------------------------
-- CSV reading and the Cache/Refresh Controller (main.py lines 542-573)
-- ----------------------------------------------------------

/-- Delimiter selection of `load_rows` (lines 559-565): start from `,`
and overwrite with the sniffer's answer when sniffing succeeds; a raised
`csv.Error` (modelled `none`) leaves the default.  The sniffer sees
`text[:1024]`. -/
def detectDelimiter (sniff : String → Option Char) (text : String) : Char :=
  match sniff (strTake 1024 text) with
  | some d => d
  | none => ','

/-- Raw records of `csv.reader`: split on newlines (tolerating CRLF; a
final newline yields no extra record), then split each line on the
delimiter; a blank line gives the empty record.  Quote handling is
outside the model — the published documents this server ingests are
unquoted. -/
def csvRecords (delim : Char) (text : String) : List (List String) :=
  let lines0 := pySplitL '\n' text.data
  let lines1 := lines0.map (fun l => if l.getLast? = some '\r' then l.dropLast else l)
  let lines2 := if lines1.getLast? = some [] then lines1.dropLast else lines1
  lines2.map (fun l => if l = [] then [] else (pySplitL delim l).map String.mk)

/-- `reader.fieldnames or []`. -/
def readerFieldnames (delim : Char) (text : String) : List String :=
  (csvRecords delim text).headD []

/-- One `csv.DictReader` row: the header zipped with the values, missing
values filled with `restval=None` (extra values beyond the header go
under the `None` restkey, which no consumer reads and is not modelled). -/
def mkRow (fns : List String) (vals : List String) : Row :=
  fns.enum.map (fun p => (p.2, vals[p.1]?))

/-- The dict comprehension `{hmap.get(k, k): v for k, v in row.items()}`. -/
def remapRow (hmap : List (String × String)) (r : Row) : Row :=
  r.map (fun kv => (assocGetD hmap kv.1 kv.1, kv.2))

/-- The data rows of the document before the name filter (lines 567-569):
`DictReader` rows (blank records skipped) with their headers remapped. -/
def remappedRows (delim : Char) (text : String) : List Row :=
  let fns := readerFieldnames delim text
  let hmap := build_header_map fns
  ((csvRecords delim text).tail.filter (fun rcd => rcd ≠ [])).map
    (fun vals => remapRow hmap (mkRow fns vals))

/-- The row filter of line 570: `(r.get("name") or "").strip()` truthy. -/
def nameKept (r : Row) : Bool :=
  pyStrip ((rowGet r "name").getD "") != ""

/-- The rows that enter the cache (lines 567-570). -/
def cachedParse (delim : Char) (text : String) : List Row :=
  (remappedRows delim text).filter nameKept

/-- `text.lstrip("﻿")`. -/
def stripBom (text : String) : String :=
  String.mk (text.data.dropWhile (· == Char.ofNat 0xFEFF))

/-- `CACHE_TTL` (seconds). -/
def cacheTTL : Int := 60

/-- The module-level `_cache` record (its `meta` entry carries no
behavior the claims touch and is not modelled). -/
structure Cache where
  atTime : Int
  rows : List Row
deriving DecidableEq

/-- The failures `load_rows` raises (`HTTPException(500, ...)` and the
propagated `httpx` errors). -/
inductive LoadErr
  | noCsvUrl
  | fetchFailed
  | notRawCsv
deriving DecidableEq

/-- Outcome of one `load_rows` call: the returned rows or raised error,
the cache afterwards, and whether an upstream fetch was issued. -/
structure LoadOut where
  result : Except LoadErr (List Row)
  cache : Cache
  fetched : Bool
deriving DecidableEq

/-- `load_rows` of `main.py`.  `csvUrl` is the already-stripped `CSV_URL`
configuration value; `fetch` is the outcome of the HTTP GET against the
resolved URL (`.error` covers network errors, timeouts and
`raise_for_status`); `sniff` is the `csv.Sniffer` oracle; `now` is
`time.time()`.  The cache test is Python truthiness: an empty cached row
list fails it. -/
def load_rows (sniff : String → Option Char) (csvUrl : String) (force : Bool)
    (now : Int) (fetch : Except Unit String) (st : Cache) : LoadOut :=
  if csvUrl = "" then ⟨.error .noCsvUrl, st, false⟩
  else if force = false ∧ st.rows ≠ [] ∧ now - st.atTime < cacheTTL then
    ⟨.ok st.rows, st, false⟩
  else
    match fetch with
    | .error _ => ⟨.error .fetchFailed, st, true⟩
    | .ok text =>
      if pyContains "<html" (pyLowerStr text) then ⟨.error .notRawCsv, st, true⟩
      else
        let t := stripBom text
        let delim := detectDelimiter sniff t
        let rows := cachedParse delim t
        ⟨.ok rows, ⟨now, rows⟩, true⟩

-- ----------------------------------------------------------
-- Lookup and listing routes (main.py lines 496-537)
-- ----------------------------------------------------------

/-- The lookup loop of `get_recipe` (main.py lines 533-536): the first
row in cache order whose slug matches is normalized and returned;
`.ok none` is the 404 path. -/
def getRecipeAux (wanted : String) : List Row → Except PyExn (Option Recipe)
  | [] => .ok none
  | r :: rest =>
    match rowSlug r with
    | .error e => .error e
    | .ok cur =>
      if cur = wanted then (normalize_row r).map some
      else getRecipeAux wanted rest

/-- `get_recipe` on an already-loaded row list: the requested slug is
stripped and slugified before comparison. -/
def get_recipe (rows : List Row) (slug : String) : Except PyExn (Option Recipe) :=
  getRecipeAux (slugify (pyStrip slug)) rows

/-- `/api/recipes`: normalize every cached row in order. -/
def list_recipes (rows : List Row) : Except PyExn (List Recipe) :=
  rows.mapM normalize_row

/-- Follows the spec's words for the claimed fallback strategy, for
comparison with `detectDelimiter`: count `;` versus `,` on the first
line only and prefer `;` exactly when strictly more frequent. -/
def specFallbackDelimiter (text : String) : Char :=
  let l1 := (pySplitL '\n' text.data).headD []
  if l1.count ',' < l1.count ';' then ';' else ','

-- ----------------------------------------------------------
-- Shared concrete fixtures and helper lemmas
-- ----------------------------------------------------------

/-- A sniffer oracle that always raises (`csv.Error`). -/
def sniffNone : String → Option Char := fun _ => none

/-- A sniffer oracle that always answers semicolon. -/
def sniffSemicolon : String → Option Char := fun _ => some ';'

/-- A one-column single-row cache fixture. -/
def rowA : Row := [("name", some "A")]

/-- Does the JSON value carry an `item` member decoding to exactly `s`? -/
def jsonHasItemStr (j : Json) (s : String) : Bool :=
  match j with
  | Json.obj fs =>
    match jLookup fs "item" with
    | some (Json.str t) => t == s
    | _ => false
  | _ => false

/-- A row fixture with an empty `glass` cell and a padded `method` cell. -/
def rowC4 : Row := [("name", some "X"), ("glass", some ""), ("method", some " rocks ")]

/-- The recipe `normalize_row` produces from `rowC4`. -/
def recC4 : Recipe :=
  ⟨"X", "x", some "", some " rocks ", none, none, none, none, none, none,
    [], none, none, none, none⟩

/-- The ingredients cell of the spec's testable example. -/
def ginCell : String := "[\x7b\"item\":\"Gin\",\"ml\":50\x7d]"

/-- The JSON object `json.loads` decodes from `ginCell`'s only element. -/
def ginObj : Json := Json.obj [("item", Json.str "Gin"), ("ml", Json.num (mkRat 50 1))]

/-- The ingredient `Ingredient(**x)` builds from `ginObj`. -/
def ginIng : Ingredient := ⟨"Gin", some (mkRat 50 1), none⟩

/-- An ingredients cell whose only object has an empty item and a
negative ml. -/
def cellNegIng : String := "[\x7b\"item\":\"\",\"ml\":-1\x7d]"

/-- A row fixture carrying `ginCell`. -/
def row7 : Row := [("name", some "Gimlet"), ("ingredients", some ginCell)]

/-- The recipe `normalize_row` produces from `row7`. -/
def rec7 : Recipe :=
  ⟨"Gimlet", "gimlet", none, none, none, none, some [ginIng], none, none, none,
    [], none, none, none, none⟩

/-- An old-style publish URL of the spreadsheet host with no `/d/e/`. -/
def oldPubhtmlUrl : String := "https://docs.google.com/spreadsheets/d/KEY123/pubhtml"

/-- A newer share-form URL with an explicit `gid`. -/
def shareUrl : String := "https://docs.google.com/spreadsheets/d/e/2PACX-abc/pubhtml?gid=7"

/-- A colliding fixture: three rows, two of which slugify to `mojito`. -/
def rowD : Row := [("name", some "Daiquiri")]

/-- First `mojito` row in document order. -/
def rowM1 : Row := [("name", some "Mojito"), ("glass", some "Highball")]

/-- Second `mojito` row (reachable only by full scan, never by lookup). -/
def rowM2 : Row := [("name", some "Mojito!!")]

/-- The document text used by the C8 witness. -/
def textC8 : String := "name,glass\nA,x\n , y\n"

/-- The surviving row set of `textC8`. -/
def rowsC8 : List Row := [[("name", some "A"), ("glass", some "x")]]

/-- In every branch that is not the fresh-cache hit (and with a
configured URL), `load_rows` issues the upstream fetch. -/
theorem load_rows_fetches (sniff : String → Option Char) (csvUrl : String)
    (now : Int) (fetch : Except Unit String) (st : Cache) (h1 : csvUrl ≠ "")
    (h2 : ¬(st.rows ≠ [] ∧ now - st.atTime < cacheTTL)) :
    (load_rows sniff csvUrl false now fetch st).fetched = true := by
  unfold load_rows
  rw [if_neg h1, if_neg (fun hand => h2 ⟨hand.2.1, hand.2.2⟩)]
  cases fetch with
  | error e => rfl
  | ok text =>
    dsimp only
    split <;> rfl

-- ----------------------------------------------------------
-- C1: stale refetch failure
-- ----------------------------------------------------------

/-- C1 (amended): a non-forced query arriving when the cache holds a
non-empty row set whose age is at least the TTL triggers a refetch, and
if that fetch fails the error is surfaced to the caller — the old rows
are not served — while the cached rows and timestamp are left exactly
as they were. -/
theorem c1_stale_refetch_error_preserves_cache (sniff : String → Option Char)
    (csvUrl : String) (now : Int) (st : Cache)
    (h1 : csvUrl ≠ "") (_h2 : st.rows ≠ []) (h3 : cacheTTL ≤ now - st.atTime) :
    load_rows sniff csvUrl false now (.error ()) st = ⟨.error .fetchFailed, st, true⟩ := by
  unfold load_rows
  rw [if_neg h1, if_neg (fun hand => absurd hand.2.2 (not_lt.mpr h3))]

/-- C1 (witness): the amended statement at a concrete stale cache. -/
theorem c1_stale_refetch_error_preserves_cache_witness :
    load_rows sniffNone "u" false 60 (.error ()) ⟨0, [rowA]⟩ =
      ⟨.error .fetchFailed, ⟨0, [rowA]⟩, true⟩ :=
  c1_stale_refetch_error_preserves_cache sniffNone "u" 60 ⟨0, [rowA]⟩
    (by decide) (by decide) (by decide)

/-- C1 (counterexample): with a one-row cache of age exactly the TTL and
a failing refetch, the query raises `fetchFailed` — it does not return
the old cached rows, though the cache itself survives unchanged. -/
theorem c1_counterexample :
    (load_rows sniffNone "u" false 60 (.error ()) ⟨0, [rowA]⟩).result =
        .error .fetchFailed ∧
      (load_rows sniffNone "u" false 60 (.error ()) ⟨0, [rowA]⟩).result ≠
        .ok [rowA] ∧
      (load_rows sniffNone "u" false 60 (.error ()) ⟨0, [rowA]⟩).cache = ⟨0, [rowA]⟩ := by
  decide

-- ----------------------------------------------------------
-- C2: delimiter detection fallback
-- ----------------------------------------------------------

/-- C2 (amended): when sniffing fails the detector returns comma
unconditionally, never examining the first line; when sniffing succeeds
it returns the sniffed delimiter, which the restricted candidate list
confines to comma, semicolon or tab; the detector is a total function
of the sniff outcome, so detection never throws. -/
theorem c2_detect_total_default_comma (sniff : String → Option Char) (text : String)
    (hc : ∀ t c, sniff t = some c → c = ',' ∨ c = ';' ∨ c = '\t') :
    (detectDelimiter sniff text = ',' ∨ detectDelimiter sniff text = ';' ∨
        detectDelimiter sniff text = '\t') ∧
      (sniff (strTake 1024 text) = none → detectDelimiter sniff text = ',') := by
  unfold detectDelimiter
  cases hs : sniff (strTake 1024 text) with
  | none => exact ⟨Or.inl rfl, fun _ => rfl⟩
  | some d => exact ⟨hc _ _ hs, fun h => Option.noConfusion h⟩

/-- C2 (witness): the candidate-set guarantee at a concrete sniffer. -/
theorem c2_detect_total_default_comma_witness :
    detectDelimiter sniffSemicolon "name;glass\nOld Fashioned;Rocks\n" = ',' ∨
      detectDelimiter sniffSemicolon "name;glass\nOld Fashioned;Rocks\n" = ';' ∨
      detectDelimiter sniffSemicolon "name;glass\nOld Fashioned;Rocks\n" = '\t' :=
  (c2_detect_total_default_comma sniffSemicolon "name;glass\nOld Fashioned;Rocks\n"
    (fun t c h => by
      injection h with h
      exact Or.inr (Or.inl h.symm))).1

/-- C2 (counterexample): on a sample where sniffing fails (the stdlib
sniffer raises on these two inconsistent lines) and whose first line
has strictly more semicolons than commas, the code yields comma while
the fallback the claim describes would yield semicolon. -/
theorem c2_counterexample :
    detectDelimiter sniffNone "a;b\nc,d" = ',' ∧
      specFallbackDelimiter "a;b\nc,d" = ';' ∧ (',' : Char) ≠ ';' := by decide

-- ----------------------------------------------------------
-- C3: abv_est guard
-- ----------------------------------------------------------

/-- C3: the cell `"1.2.3"` passes the `replace(".", "").isdigit()`
guard, so `float("1.2.3")` runs and raises `ValueError`, which
`normalize_row` propagates — invalid numeric text is not resolved to
absent; the cell `" 42 "` is numeric-looking after trimming yet the
untrimmed guard rejects it, so it resolves to absent instead of `42.0`. -/
theorem c3_abv_guard_valueerror :
    normalize_row [("name", some "X"), ("abv_est", some "1.2.3")] =
        .error .valueError ∧
      abvEst (some " 42 ") = .ok none ∧ abvEst (some "42") = .ok (some (mkRat 42 1)) := by
  decide

-- ----------------------------------------------------------
-- C9: TTL gating of the upstream fetch
-- ----------------------------------------------------------

/-- C9 (amended): with a configured URL, a non-forced query finding a
non-empty cached row set younger than the TTL is answered from the
cache with no fetch and no state change; a query finding an empty
cached row set fetches again regardless of age (the truthiness test on
the row list fails); a query at or beyond the TTL fetches. -/
theorem c9_ttl_truthiness_gate (sniff : String → Option Char) (csvUrl : String)
    (now : Int) (fetch : Except Unit String) (st : Cache) (h1 : csvUrl ≠ "") :
    (st.rows ≠ [] → now - st.atTime < cacheTTL →
        load_rows sniff csvUrl false now fetch st = ⟨.ok st.rows, st, false⟩) ∧
      (st.rows = [] → (load_rows sniff csvUrl false now fetch st).fetched = true) ∧
      (cacheTTL ≤ now - st.atTime →
        (load_rows sniff csvUrl false now fetch st).fetched = true) := by
  refine ⟨fun h2 h3 => ?_, fun h2 => ?_, fun h3 => ?_⟩
  · unfold load_rows
    rw [if_neg h1, if_pos ⟨rfl, h2, h3⟩]
  · exact load_rows_fetches sniff csvUrl now fetch st h1 (fun hand => hand.1 h2)
  · exact load_rows_fetches sniff csvUrl now fetch st h1
      (fun hand => absurd hand.2 (not_lt.mpr h3))

/-- C9 (witness): the fresh-cache hit and the TTL-expiry fetch at
concrete times 30 and 60 seconds after a fetch. -/
theorem c9_ttl_truthiness_gate_witness :
    load_rows sniffNone "u" false 30 (.ok "x") ⟨0, [rowA]⟩ =
        ⟨.ok [rowA], ⟨0, [rowA]⟩, false⟩ ∧
      (load_rows sniffNone "u" false 60 (.ok "x") ⟨0, [rowA]⟩).fetched = true :=
  ⟨(c9_ttl_truthiness_gate sniffNone "u" 30 (.ok "x") ⟨0, [rowA]⟩ (by decide)).1
      (by decide) (by decide),
    (c9_ttl_truthiness_gate sniffNone "u" 60 (.ok "x") ⟨0, [rowA]⟩ (by decide)).2.2
      (by decide)⟩

/-- C9 (counterexample): a successful fetch yielding zero data rows is
cached, yet a second non-forced query one second later — far inside the
TTL window — fetches again, because the empty cached row list fails the
Python truthiness test. -/
theorem c9_counterexample :
    load_rows sniffNone "u" false 0 (.ok "name\n") ⟨-100, []⟩ = ⟨.ok [], ⟨0, []⟩, true⟩ ∧
      (load_rows sniffNone "u" false 1 (.ok "name\n") ⟨0, []⟩).fetched = true := by decide

-- ----------------------------------------------------------
-- C4 / C7: normalize_row structure
-- ----------------------------------------------------------

/-- `normalize_row` evaluated by cases on its two fallible
sub-expressions. -/
theorem normalize_row_eq (raw : Row) :
    normalize_row raw =
      match rowSlug raw, abvEst (rowGet raw "abv_est") with
      | .error e, _ => .error e
      | .ok _, .error e => .error e
      | .ok s, .ok a =>
        .ok { name := pyStrip ((rowGet raw "name").getD "")
              slug := s
              glass := rowGet raw "glass"
              method := rowGet raw "method"
              ice := rowGet raw "ice"
              garnish := rowGet raw "garnish"
              ingredients := parseIngredientsCell ((rowGet raw "ingredients").getD "")
              spec_ml := rowGet raw "spec_ml"
              spec_oz := rowGet raw "spec_oz"
              history := rowGet raw "history"
              tags := splitTags ((rowGet raw "tags").getD "")
              abv_est := a
              notes := rowGet raw "notes"
              source := rowGet raw "source"
              last_update := rowGet raw "last_update" } := by
  unfold normalize_row
  cases rowSlug raw <;> cases abvEst (rowGet raw "abv_est") <;> rfl

/-- Eliminator for a successful `normalize_row`. -/
theorem normalize_row_ok_elim (raw : Row) (q : Recipe) (h : normalize_row raw = .ok q) :
    ∃ s a, rowSlug raw = .ok s ∧ abvEst (rowGet raw "abv_est") = .ok a ∧
      q = { name := pyStrip ((rowGet raw "name").getD "")
            slug := s
            glass := rowGet raw "glass"
            method := rowGet raw "method"
            ice := rowGet raw "ice"
            garnish := rowGet raw "garnish"
            ingredients := parseIngredientsCell ((rowGet raw "ingredients").getD "")
            spec_ml := rowGet raw "spec_ml"
            spec_oz := rowGet raw "spec_oz"
            history := rowGet raw "history"
            tags := splitTags ((rowGet raw "tags").getD "")
            abv_est := a
            notes := rowGet raw "notes"
            source := rowGet raw "source"
            last_update := rowGet raw "last_update" } := by
  rw [normalize_row_eq] at h
  cases hs : rowSlug raw with
  | error e => rw [hs] at h; exact Except.noConfusion h
  | ok s =>
    rw [hs] at h
    cases ha : abvEst (rowGet raw "abv_est") with
    | error e => rw [ha] at h; exact Except.noConfusion h
    | ok a =>
      rw [ha] at h
      injection h with h
      exact ⟨s, a, rfl, rfl, h.symm⟩

/-- C4 (amended): every optional string field other than `name` is
passed through from the row without change — a missing column or `None`
cell yields an absent value, while any present string, the empty and
the whitespace-padded ones included, is kept verbatim and untrimmed. -/
theorem c4_optional_fields_passthrough (raw : Row) (q : Recipe)
    (h : normalize_row raw = .ok q) :
    q.glass = rowGet raw "glass" ∧ q.method = rowGet raw "method" ∧
      q.ice = rowGet raw "ice" ∧ q.garnish = rowGet raw "garnish" ∧
      q.spec_ml = rowGet raw "spec_ml" ∧ q.spec_oz = rowGet raw "spec_oz" ∧
      q.history = rowGet raw "history" ∧ q.notes = rowGet raw "notes" ∧
      q.source = rowGet raw "source" ∧ q.last_update = rowGet raw "last_update" := by
  obtain ⟨s, a, _, _, hq⟩ := normalize_row_ok_elim raw q h
  subst hq
  exact ⟨rfl, rfl, rfl, rfl, rfl, rfl, rfl, rfl, rfl, rfl⟩

/-- C4 (witness): the pass-through equalities at the concrete `rowC4`. -/
theorem c4_optional_fields_passthrough_witness :
    recC4.glass = rowGet rowC4 "glass" ∧ recC4.method = rowGet rowC4 "method" ∧
      recC4.ice = rowGet rowC4 "ice" ∧ recC4.garnish = rowGet rowC4 "garnish" ∧
      recC4.spec_ml = rowGet rowC4 "spec_ml" ∧ recC4.spec_oz = rowGet rowC4 "spec_oz" ∧
      recC4.history = rowGet rowC4 "history" ∧ recC4.notes = rowGet rowC4 "notes" ∧
      recC4.source = rowGet rowC4 "source" ∧ recC4.last_update = rowGet rowC4 "last_update" :=
  c4_optional_fields_passthrough rowC4 recC4 (by decide)

/-- C4 (counterexample): an empty `glass` cell survives as the empty
string — not as an absent value — and a padded `method` cell is kept
untrimmed, contradicting the claimed trim-and-absent normalization. -/
theorem c4_counterexample :
    normalize_row rowC4 = .ok recC4 ∧ recC4.glass = some "" ∧
      recC4.method = some " rocks " ∧ some "" ≠ (none : Option String) := by decide

-- ----------------------------------------------------------
-- C5: what the Ingredient coercion does and does not enforce
-- ----------------------------------------------------------

/-- Membership transfer through the element-wise coercion. -/
theorem coerceList_mem (xs : List Json) (l : List Ingredient) (ing : Ingredient)
    (h : coerceList xs = some l) (hm : ing ∈ l) :
    ∃ j ∈ xs, toIngredient j = some ing := by
  induction xs generalizing l with
  | nil =>
    unfold coerceList at h
    injection h with h
    subst h
    cases hm
  | cons j js ih =>
    unfold coerceList at h
    cases ht : toIngredient j with
    | none => rw [ht] at h; exact Option.noConfusion h
    | some i =>
      rw [ht] at h
      cases hc : coerceList js with
      | none => rw [hc] at h; exact Option.noConfusion h
      | some l2 =>
        rw [hc] at h
        injection h with h
        subst h
        cases hm with
        | head => exact ⟨j, List.mem_cons_self j js, ht⟩
        | tail _ hm2 =>
          obtain ⟨j2, hj2, hjt⟩ := ih l2 hc hm2
          exact ⟨j2, List.mem_cons_of_mem j hj2, hjt⟩

/-- A successful coercion certifies the `item` member: the source JSON
object carries `item` with exactly the produced string. -/
theorem toIngredient_item (j : Json) (ing : Ingredient)
    (h : toIngredient j = some ing) : jsonHasItemStr j ing.item = true := by
  cases j with
  | null => exact Option.noConfusion h
  | bool b => exact Option.noConfusion h
  | num q => exact Option.noConfusion h
  | str s => exact Option.noConfusion h
  | arr xs => exact Option.noConfusion h
  | obj fs =>
    dsimp only [toIngredient] at h
    cases hi : jLookup fs "item" with
    | none => rw [hi] at h; exact Option.noConfusion h
    | some jv =>
      rw [hi] at h
      cases jv with
      | str s =>
        cases hml : coerceNumField (jLookup fs "ml") with
        | none => rw [hml] at h; exact Option.noConfusion h
        | some ml =>
          cases hoz : coerceNumField (jLookup fs "oz") with
          | none => rw [hml, hoz] at h; exact Option.noConfusion h
          | some oz =>
            rw [hml, hoz] at h
            injection h with h
            subst h
            dsimp only [jsonHasItemStr]
            rw [hi]
            exact beq_self_eq_true s
      | null => exact Option.noConfusion h
      | bool b => exact Option.noConfusion h
      | num q => exact Option.noConfusion h
      | arr xs => exact Option.noConfusion h
      | obj fs2 => exact Option.noConfusion h

/-- C5 (amended): every `Ingredient` a parsed ingredients cell ever
produces comes from an element of the decoded JSON array that is an
object carrying the required `item` member with exactly the produced
item string; that string may be empty and `ml`/`oz` may be negative —
the non-emptiness and non-negativity of the data-model invariant are
not enforced anywhere. -/
theorem c5_item_member_required (cell : String) (xs : List Json)
    (l : List Ingredient) (ing : Ingredient)
    (hl : pyJsonLoads (pyStrip cell) = some (Json.arr xs))
    (hp : parseIngredientsCell cell = some l) (hm : ing ∈ l) :
    xs.any (fun j => jsonHasItemStr j ing.item) = true := by
  unfold parseIngredientsCell at hp
  by_cases hb : strStartsWithChar '[' (pyStrip cell) = true
  · rw [if_pos hb, hl] at hp
    obtain ⟨j, hj, hjt⟩ := coerceList_mem xs l ing hp hm
    exact List.any_eq_true.mpr ⟨j, hj, toIngredient_item j ing hjt⟩
  · rw [if_neg hb] at hp
    exact Option.noConfusion hp

/-- C5 (witness): the provenance fact at the spec's `Gin` example cell. -/
theorem c5_item_member_required_witness :
    List.any [ginObj] (fun j => jsonHasItemStr j ginIng.item) = true :=
  c5_item_member_required ginCell [ginObj] [ginIng] ginIng (by rfl) (by rfl)
    (List.mem_singleton.mpr rfl)

/-- C5 (counterexample): a cell parses successfully into an `Ingredient`
whose `item` is the empty string and whose `ml` is negative, so the
claimed invariant (non-empty item, non-negative measures) fails for
produced ingredients. -/
theorem c5_counterexample :
    parseIngredientsCell cellNegIng = some [⟨"", some (mkRat (-1) 1), none⟩] ∧
      (mkRat (-1) 1).num < 0 ∧ ¬("" ≠ "") := by decide

-- ----------------------------------------------------------
-- C7: all-or-nothing ingredients parsing
-- ----------------------------------------------------------

/-- C7: for every row `normalize_row` accepts, the ingredients field is
all-or-nothing — a stripped cell not opening with `[` yields an absent
list, a `json.loads` failure yields an absent list, and a decoded array
yields exactly the element-wise coercion, which is the full list when
every element coerces and absent when any element fails; moreover an
error escaping `normalize_row` can only originate in the slug
expression or in the `abv_est` float call, never in ingredients
parsing. -/
theorem c7_ingredients_all_or_nothing (row : Row) :
    (∀ q, normalize_row row = .ok q →
        q.ingredients = parseIngredientsCell ((rowGet row "ingredients").getD "") ∧
          (strStartsWithChar '[' (pyStrip ((rowGet row "ingredients").getD "")) = false →
            q.ingredients = none) ∧
          (pyJsonLoads (pyStrip ((rowGet row "ingredients").getD "")) = none →
            q.ingredients = none) ∧
          (∀ xs, pyJsonLoads (pyStrip ((rowGet row "ingredients").getD "")) =
              some (Json.arr xs) →
            strStartsWithChar '[' (pyStrip ((rowGet row "ingredients").getD "")) = true →
            q.ingredients = coerceList xs)) ∧
      (∀ e, normalize_row row = .error e →
        rowSlug row = .error e ∨ abvEst (rowGet row "abv_est") = .error e) := by
  constructor
  · intro q h
    obtain ⟨s, a, _, _, hq⟩ := normalize_row_ok_elim row q h
    subst hq
    refine ⟨rfl, fun hb => ?_, fun hn => ?_, fun xs hl hb => ?_⟩
    · unfold parseIngredientsCell
      rw [if_neg (by rw [hb]; exact Bool.false_ne_true)]
    · unfold parseIngredientsCell
      by_cases hb : strStartsWithChar '[' (pyStrip ((rowGet row "ingredients").getD "")) = true
      · rw [if_pos hb, hn]
      · rw [if_neg hb]
    · unfold parseIngredientsCell
      rw [if_pos hb, hl]
  · intro e h
    rw [normalize_row_eq] at h
    cases hs : rowSlug row with
    | error e2 =>
      rw [hs] at h
      injection h with h
      subst h
      exact Or.inl rfl
    | ok s =>
      rw [hs] at h
      cases ha : abvEst (rowGet row "abv_est") with
      | error e2 =>
        rw [ha] at h
        injection h with h
        subst h
        exact Or.inr rfl
      | ok a => rw [ha] at h; exact Except.noConfusion h

/-- C7 (witness): the spec's `Gin` example row — one ingredient with
`item = "Gin"`, `ml = 50`, `oz` absent — and the all-or-nothing field
equality at that row. -/
theorem c7_ingredients_all_or_nothing_witness :
    normalize_row row7 = .ok rec7 ∧ rec7.ingredients = some [ginIng] ∧
      rec7.ingredients = parseIngredientsCell ((rowGet row7 "ingredients").getD "") :=
  ⟨by decide, by decide,
    ((c7_ingredients_all_or_nothing row7).1 rec7 (by decide)).1⟩

-- ----------------------------------------------------------
-- C6: the Source URL Resolver
-- ----------------------------------------------------------

/-- C6 (amended): the resolver rewrites exactly the URLs whose parse
puts the spreadsheet host in the netloc and both `/spreadsheets/` and
`/d/e/` in a path of at least five slash-separated components — the
newer share form; the rewrite is the direct CSV-export URL built from
the fifth path component, and the `gid` sent along is the URL's first
`gid` query value when present and `0` otherwise; every other URL
string is returned unchanged, and the resolver is a total function, so
no input raises. -/
theorem c6_share_form_rewrite (url : String) :
    ((pyContains "docs.google.com" (pyUrlparse url).netloc &&
          pyContains "/spreadsheets/" (pyUrlparse url).path &&
          pyContains "/d/e/" (pyUrlparse url).path) = true →
        (5 ≤ (pySplitStr '/' (pyUrlparse url).path).length →
          google_pubhtml_to_csv url =
            "https://docs.google.com/spreadsheets/d/e/" ++
              (pySplitStr '/' (pyUrlparse url).path).getD 4 "" ++ "/pub?gid=" ++
              gidFirst (pyUrlparse url).query ++ "&single=true&output=csv") ∧
        ((pySplitStr '/' (pyUrlparse url).path).length < 5 →
          google_pubhtml_to_csv url = url)) ∧
      ((pyContains "docs.google.com" (pyUrlparse url).netloc &&
          pyContains "/spreadsheets/" (pyUrlparse url).path &&
          pyContains "/d/e/" (pyUrlparse url).path) = false →
        google_pubhtml_to_csv url = url) ∧
      (∀ p, (parseQsl (pyUrlparse url).query).find? (fun x => x.1 == "gid") = some p →
        gidFirst (pyUrlparse url).query = p.2) ∧
      ((parseQsl (pyUrlparse url).query).find? (fun x => x.1 == "gid") = none →
        gidFirst (pyUrlparse url).query = "0") := by
  refine ⟨fun hc => ⟨fun hlen => ?_, fun hlen => ?_⟩, fun hc => ?_,
    fun p hp => ?_, fun hn => ?_⟩
  · simp only [google_pubhtml_to_csv]
    rw [if_pos hc, if_pos hlen]
  · simp only [google_pubhtml_to_csv]
    rw [if_pos hc, if_neg (by omega)]
  · simp only [google_pubhtml_to_csv]
    rw [if_neg (by rw [hc]; exact Bool.false_ne_true)]
  · unfold gidFirst
    rw [hp]
  · unfold gidFirst
    rw [hn]

/-- C6 (witness): the rewrite at a concrete share URL carrying `gid=7`. -/
theorem c6_share_form_rewrite_witness :
    google_pubhtml_to_csv shareUrl =
      "https://docs.google.com/spreadsheets/d/e/2PACX-abc/pub?gid=7&single=true&output=csv" :=
  (((c6_share_form_rewrite shareUrl).1 (by decide)).1 (by decide)).trans (by decide)

/-- C6 (counterexample): an old-form publish URL of the spreadsheet
host — its path ends in `/pubhtml` but has no `/d/e/` segment — is
returned unchanged rather than rewritten to the corresponding direct
CSV-export URL (the result does not even mention `output=csv`). -/
theorem c6_counterexample :
    google_pubhtml_to_csv oldPubhtmlUrl = oldPubhtmlUrl ∧
      pyContains "pubhtml" oldPubhtmlUrl = true ∧
      pyContains "output=csv" (google_pubhtml_to_csv oldPubhtmlUrl) = false := by decide

-- ----------------------------------------------------------
-- C8 / C10: lookup loop lemmas
-- ----------------------------------------------------------

/-- Unfolding of the lookup loop at a row whose slug computes. -/
theorem getRecipeAux_cons_ok (wanted : String) (r : Row) (rest : List Row) (s : String)
    (hs : rowSlug r = .ok s) :
    getRecipeAux wanted (r :: rest) =
      if s = wanted then (normalize_row r).map some else getRecipeAux wanted rest := by
  conv_lhs => rw [getRecipeAux]
  rw [hs]

/-- Unfolding of the lookup loop at a row whose slug expression raises. -/
theorem getRecipeAux_cons_err (wanted : String) (r : Row) (rest : List Row) (e : PyExn)
    (hs : rowSlug r = .error e) : getRecipeAux wanted (r :: rest) = .error e := by
  unfold getRecipeAux
  rw [hs]

/-- Any recipe the lookup loop returns is the normalization of one of
the rows it searched. -/
theorem getRecipeAux_mem (wanted : String) (rows : List Row) (q : Recipe)
    (h : getRecipeAux wanted rows = .ok (some q)) :
    ∃ r ∈ rows, normalize_row r = .ok q := by
  induction rows with
  | nil =>
    unfold getRecipeAux at h
    injection h with h
    exact Option.noConfusion h
  | cons r rest ih =>
    cases hs : rowSlug r with
    | error e =>
      rw [getRecipeAux_cons_err wanted r rest e hs] at h
      exact Except.noConfusion h
    | ok cur =>
      rw [getRecipeAux_cons_ok wanted r rest cur hs] at h
      by_cases hc : cur = wanted
      · rw [if_pos hc] at h
        cases hn : normalize_row r with
        | error e => rw [hn] at h; exact Except.noConfusion h
        | ok q2 =>
          rw [hn] at h
          injection h with h
          injection h with h
          exact ⟨r, List.mem_cons_self r rest, by rw [hn, h]⟩
      · rw [if_neg hc] at h
        obtain ⟨r2, hr2, hq⟩ := ih h
        exact ⟨r2, List.mem_cons_of_mem r hr2, hq⟩

-- ----------------------------------------------------------
-- C8: the empty-name row filter
-- ----------------------------------------------------------

/-- C8: whenever `load_rows` actually fetched and returned successfully,
the returned rows — which are exactly what it cached — are precisely
the header-remapped rows whose trimmed name is non-empty, kept in
document order; hence every cached row has a non-empty trimmed name,
and any recipe the slug lookup over those rows returns comes from one
of them. -/
theorem c8_name_filter_and_order (sniff : String → Option Char) (csvUrl : String)
    (force : Bool) (now : Int) (text : String) (st : Cache) (rows : List Row)
    (hf : (load_rows sniff csvUrl force now (.ok text) st).fetched = true)
    (hr : (load_rows sniff csvUrl force now (.ok text) st).result = .ok rows) :
    rows = (remappedRows (detectDelimiter sniff (stripBom text))
        (stripBom text)).filter nameKept ∧
      (load_rows sniff csvUrl force now (.ok text) st).cache.rows = rows ∧
      (∀ r ∈ rows, nameKept r = true) ∧
      (∀ slug q, get_recipe rows slug = .ok (some q) →
        ∃ r ∈ rows, normalize_row r = .ok q) := by
  unfold load_rows at hf hr ⊢
  by_cases h1 : csvUrl = ""
  · rw [if_pos h1] at hf
    exact Bool.noConfusion hf
  · rw [if_neg h1] at hf hr ⊢
    by_cases h2 : force = false ∧ st.rows ≠ [] ∧ now - st.atTime < cacheTTL
    · rw [if_pos h2] at hf
      exact Bool.noConfusion hf
    · rw [if_neg h2] at hr ⊢
      dsimp only at hr ⊢
      by_cases h3 : pyContains "<html" (pyLowerStr text) = true
      · rw [if_pos h3] at hr
        exact Except.noConfusion hr
      · rw [if_neg h3] at hr ⊢
        injection hr with hr
        subst hr
        refine ⟨rfl, rfl, fun r hrm => ?_, fun slug q hq => getRecipeAux_mem _ _ q hq⟩
        exact (List.mem_filter.mp hrm).2

/-- C8 (witness): the filter characterization and the cache equality at
a concrete document whose second data row has a whitespace-only name. -/
theorem c8_name_filter_and_order_witness :
    rowsC8 = (remappedRows (detectDelimiter sniffNone (stripBom textC8))
        (stripBom textC8)).filter nameKept ∧
      (load_rows sniffNone "u" false 0 (.ok textC8) ⟨-100, []⟩).cache.rows = rowsC8 :=
  ⟨(c8_name_filter_and_order sniffNone "u" false 0 textC8 ⟨-100, []⟩ rowsC8
      (by decide) (by decide)).1,
    (c8_name_filter_and_order sniffNone "u" false 0 textC8 ⟨-100, []⟩ rowsC8
      (by decide) (by decide)).2.1⟩

-- ----------------------------------------------------------
-- C10: colliding slugs resolve to the first row
-- ----------------------------------------------------------

/-- C10: the slug lookup returns the recipe built from the first row in
cache order whose computed slug matches the slugified request,
deterministically and regardless of what rows — colliding ones
included — come after it; those later rows are unreachable through this
slug. -/
theorem c10_first_match_wins (slug : String) (pre post : List Row) (r : Row)
    (hpre : ∀ r2 ∈ pre, ∃ s, rowSlug r2 = .ok s ∧ s ≠ slugify (pyStrip slug))
    (hr : rowSlug r = .ok (slugify (pyStrip slug))) :
    get_recipe (pre ++ r :: post) slug = (normalize_row r).map some := by
  revert hpre
  unfold get_recipe
  induction pre with
  | nil =>
    intro _
    rw [List.nil_append, getRecipeAux_cons_ok _ r post _ hr, if_pos rfl]
  | cons p pre2 ih =>
    intro hpre
    obtain ⟨s, hs, hne⟩ := hpre p (List.mem_cons_self p pre2)
    rw [List.cons_append, getRecipeAux_cons_ok _ p (pre2 ++ r :: post) s hs, if_neg hne]
    exact ih (fun r2 hm => hpre r2 (List.mem_cons_of_mem p hm))

/-- C10 (witness): with two distinct rows both slugifying to `mojito`,
the lookup returns the first one's recipe. -/
theorem c10_first_match_wins_witness :
    get_recipe [rowD, rowM1, rowM2] "Mojito" = (normalize_row rowM1).map some :=
  c10_first_match_wins "Mojito" [rowD] [rowM2] rowM1
    (fun r2 hm => by
      rw [List.mem_singleton] at hm
      subst hm
      exact ⟨"daiquiri", by decide, by decide⟩)
    (by decide)
